import Mathlib

/-!
Verification development for the raio Bolt/PackStream client library.

The Rust sources are shallowly embedded: byte streams are `List Nat` (each
entry a byte value), machine integers are `Int`/`Nat` with explicit
wrap-around where the source truncates, fallible code returns `Except`,
and a Rust panic is modelled by the dedicated error value `crash`.
-/

namespace Raio

/-- Big-endian `u16` encoding, as done by `BoltWriteable for u16`
(`bolt_write.rs`) and `u16::to_be_bytes`. -/
def u16be (n : Nat) : List Nat :=
  [(n / 256) % 256, n % 256]

/-- Big-endian `u32` encoding (`BoltWriteable for u32`,
`bolt_write.rs`). -/
def u32be (n : Nat) : List Nat :=
  [(n / 16777216) % 256, (n / 65536) % 256, (n / 256) % 256, n % 256]

/-- Two's-complement byte of a signed integer, as produced by
`write_i8`. -/
def i8byte (i : Int) : Nat := (i % 256).toNat

/-- Big-endian two's-complement encoding of an `i16`
(`BoltWriteable for i16`, `bolt_write.rs`). -/
def i16be (i : Int) : List Nat :=
  let n := (i % 65536).toNat
  [(n / 256) % 256, n % 256]

/-- Big-endian two's-complement encoding of an `i32`
(`BoltWriteable for i32`, `bolt_write.rs`). -/
def i32be (i : Int) : List Nat :=
  let n := (i % 4294967296).toNat
  [(n / 16777216) % 256, (n / 65536) % 256, (n / 256) % 256, n % 256]

/-- Big-endian two's-complement encoding of an `i64`
(`BoltWriteable for i64`, `bolt_write.rs`). -/
def i64be (i : Int) : List Nat :=
  let n := (i % 18446744073709551616).toNat
  [(n / 72057594037927936) % 256, (n / 281474976710656) % 256,
   (n / 1099511627776) % 256, (n / 4294967296) % 256,
   (n / 16777216) % 256, (n / 65536) % 256, (n / 256) % 256, n % 256]

/-- Big-endian encoding of the 8 bytes of an `f64` bit pattern
(`BoltWriteable for f64`, `bolt_write.rs`); floats are modelled by their
IEEE-754 bit patterns. -/
def f64be (bits : Nat) : List Nat :=
  let n := bits % 18446744073709551616
  [(n / 72057594037927936) % 256, (n / 281474976710656) % 256,
   (n / 1099511627776) % 256, (n / 4294967296) % 256,
   (n / 16777216) % 256, (n / 65536) % 256, (n / 256) % 256, n % 256]

/-- Embeds `combine_nibble` from `byte_op.rs`: high nibble of `high` with low
nibble of `low`. -/
def combine_nibble (high low : Nat) : Nat :=
  (high / 16) * 16 + low % 16

/-- Embeds `low_nibble` from `byte_op.rs`. -/
def low_nibble (b : Nat) : Nat := b % 16

/-- Embeds `high_nibble` from `byte_op.rs`. -/
def high_nibble (b : Nat) : Nat := (b / 16) * 16

/-! Section: PackStream markers (`packing/ll/marker.rs`) -/

/-- The `MarkerByte` enum from `marker.rs`. -/
inductive MarkerByte where
  | PlusTinyInt
  | MinusTinyInt
  | TinyString
  | TinyList
  | TinyMap
  | TinyStruct
  | Null
  | BoolFalse
  | BoolTrue
  | Float64
  | Int8
  | Int16
  | Int32
  | Int64
  | String8
  | String16
  | String32
  | List8
  | List16
  | List32
  | Map8
  | Map16
  | Map32
  | Struct8
  | Struct16
deriving DecidableEq, Repr

/-- Errors of the decoding side; `UnpackError` together with the marker and
signature read errors of `packing/error`.  A Rust panic (an `unwrap` of an
`Err`, or an `unimplemented!`) is modelled by the dedicated value `crash`;
`outOfFuel` is an artifact of the fuel-based embedding and is never produced
when enough fuel is supplied. -/
inductive UnpackErr where
  | unknownMarker (b : Nat)
  | unexpectedMarker
  | unexpectedSignature
  | unexpectedSignatureSize
  | unknownSignature (b : Nat)
  | truncated
  | outOfFuel
  | crash
deriving DecidableEq, Repr

/-- Embeds `MarkerByte::try_from(u8)` from `marker.rs`: any byte `<= 0x7F` is a
`PlusTinyInt`; exact matches next; otherwise tiny markers by high nibble. -/
def markerOfByte (b : Nat) : Except UnpackErr MarkerByte :=
  if b ≤ 0x7F then .ok .PlusTinyInt
  else if b = 0xC0 then .ok .Null
  else if b = 0xC2 then .ok .BoolFalse
  else if b = 0xC3 then .ok .BoolTrue
  else if b = 0xC1 then .ok .Float64
  else if b = 0xC8 then .ok .Int8
  else if b = 0xC9 then .ok .Int16
  else if b = 0xCA then .ok .Int32
  else if b = 0xCB then .ok .Int64
  else if b = 0xD0 then .ok .String8
  else if b = 0xD1 then .ok .String16
  else if b = 0xD2 then .ok .String32
  else if b = 0xD4 then .ok .List8
  else if b = 0xD5 then .ok .List16
  else if b = 0xD6 then .ok .List32
  else if b = 0xD8 then .ok .Map8
  else if b = 0xD9 then .ok .Map16
  else if b = 0xDA then .ok .Map32
  else if b = 0xDC then .ok .Struct8
  else if b = 0xDD then .ok .Struct16
  else if high_nibble b = 0x90 then .ok .TinyList
  else if high_nibble b = 0xA0 then .ok .TinyMap
  else if high_nibble b = 0x80 then .ok .TinyString
  else if high_nibble b = 0xB0 then .ok .TinyStruct
  else if high_nibble b = 0xF0 then .ok .MinusTinyInt
  else .error (.unknownMarker b)

/-! Section: The `Value` model (`packing/types/value.rs`, `structs.rs`)

Rust `String`s are modelled by their UTF-8 byte lists, `f64` by its IEEE-754
bit pattern, and the `HashMap`-backed `ValueMap` by an association list (the
iteration order of the hash map fixed to list order). -/

mutual
inductive Value where
  | null
  | boolean (b : Bool)
  | integer (i : Int)
  | float (bits : Nat)
  | string (s : List Nat)
  | list (vs : List Value)
  | map (m : List (List Nat × Value))
  | node (n : Node)
  | relationship (r : Relationship)
  | unboundRelationship (u : UnboundRelationship)
  | path (p : Path)

inductive Node where
  | mk (node_identity : Int) (labels : List (List Nat))
       (properties : List (List Nat × Value))

inductive UnboundRelationship where
  | mk (rel_identity : Int) (type_s : List Nat)
       (properties : List (List Nat × Value))

inductive Relationship where
  | mk (rel_identity : Int) (start_node_identity : Int)
       (end_node_identity : Int) (type_s : List Nat)
       (properties : List (List Nat × Value))

inductive Path where
  | mk (nodes : List Node) (relationships : List UnboundRelationship)
       (sequence : List Int)
end

/-- Errors of the encoding side (`PackError`): a container whose size does
not even fit `u32`. -/
inductive PackErr where
  | tooLarge
deriving DecidableEq, Repr

/-- Embeds `impl Packable for i64` from `packing/pack.rs`: `PlusTinyInt` for
`[0,127]`, `MinusTinyInt` for `[-16,-1]` (packed via
`TinySizeMarker { marker: MinusTinyInt, tiny_size: -i - 1 }`, i.e. the byte
`0xF0 + (-i - 1)`), then the `Int8`/`Int16`/`Int32`/`Int64` stack by
`try_from` range checks. -/
def i64_pack_to (i : Int) : List Nat :=
  if 0 ≤ i ∧ i ≤ 127 then [i.toNat]
  else if -16 ≤ i ∧ i ≤ 0 then [combine_nibble 0xF0 (-i - 1).toNat]
  else if -128 ≤ i ∧ i ≤ 127 then 0xC8 :: [i8byte i]
  else if -32768 ≤ i ∧ i ≤ 32767 then 0xC9 :: i16be i
  else if -2147483648 ≤ i ∧ i ≤ 2147483647 then 0xCA :: i32be i
  else 0xCB :: i64be i

/-- Embeds `impl Packable for String` (`pack.rs`): the tiniest header
whose size fits, then the UTF-8 bytes.  The definition of the
`as_tiny_sized_to` trait helper is not among the sources; its layout here
follows `TinySized::pack_as_to`/`write_header` (`tiny_sized.rs`), a
combined marker/size nibble byte; the sized forms follow `sized_header_to`
(`sized.rs`). -/
def string_pack_to (s : List Nat) : Except PackErr (List Nat) :=
  let len := s.length
  if len ≤ 15 then .ok (combine_nibble 0x80 len :: s)
  else if len ≤ 255 then .ok (0xD0 :: len :: s)
  else if len ≤ 65535 then .ok (0xD1 :: (u16be len ++ s))
  else if len ≤ 4294967295 then .ok (0xD2 :: (u32be len ++ s))
  else .error .tooLarge

/-- Embeds the container header choice shared by `ValueList` and
`ValueMap` packing (`pack.rs`): tiny form for sizes `<= 15` (combined
marker/size nibble, per `TinySized::write_header`), then the
`u8`/`u16`/`u32` sized forms per `sized_header_to` (`sized.rs`). -/
def container_header (tiny m8 m16 m32 : Nat) (len : Nat) :
    Except PackErr (List Nat) :=
  if len ≤ 15 then .ok [combine_nibble tiny len]
  else if len ≤ 255 then .ok [m8, len]
  else if len ≤ 65535 then .ok (m16 :: u16be len)
  else if len ≤ 4294967295 then .ok (m32 :: u32be len)
  else .error .tooLarge

/-- Body of a packed `ValueList<String>`: each string packed in order. -/
def strings_pack_body : List (List Nat) → Except PackErr (List Nat)
  | [] => .ok []
  | s :: rest => do
      let hd ← string_pack_to s
      let tl ← strings_pack_body rest
      .ok (hd ++ tl)

/-- Embeds `impl Packable for ValueList<String>` (labels of a `Node`): container
header, then each string packed. -/
def string_list_pack_to (ss : List (List Nat)) : Except PackErr (List Nat) := do
  let header ← container_header 0x90 0xD4 0xD5 0xD6 ss.length
  let body ← strings_pack_body ss
  .ok (header ++ body)

/-- Embeds `impl Packable for ValueList<i64>` (the `sequence` of a `Path`). -/
def i64_list_pack_to (is : List Int) : Except PackErr (List Nat) := do
  let header ← container_header 0x90 0xD4 0xD5 0xD6 is.length
  .ok (header ++ (is.map i64_pack_to).flatten)

mutual
/-- Embeds `impl Packable for Value` (`value.rs`), dispatching on the variant. -/
def value_pack_to : Value → Except PackErr (List Nat)
  | .null => .ok [0xC0]
  | .boolean b => .ok [if b then 0xC3 else 0xC2]
  | .integer i => .ok (i64_pack_to i)
  | .float bits => .ok (0xC1 :: f64be bits)
  | .string s => string_pack_to s
  | .list vs => do
      let header ← container_header 0x90 0xD4 0xD5 0xD6 vs.length
      let body ← values_pack_body vs
      .ok (header ++ body)
  | .map m => do
      let header ← container_header 0xA0 0xD8 0xD9 0xDA m.length
      let body ← entries_pack_body m
      .ok (header ++ body)
  | .node n => node_pack_to n
  | .relationship r => relationship_pack_to r
  | .unboundRelationship u => unbound_pack_to u
  | .path p => path_pack_to p

/-- Body of a packed `ValueList<Value>`: the elements in order. -/
def values_pack_body : List Value → Except PackErr (List Nat)
  | [] => .ok []
  | v :: rest => do
      let hd ← value_pack_to v
      let tl ← values_pack_body rest
      .ok (hd ++ tl)

/-- Body of a packed `ValueMap<Value>`: `(key, value)` pairs in iteration
order. -/
def entries_pack_body : List (List Nat × Value) → Except PackErr (List Nat)
  | [] => .ok []
  | (k, v) :: rest => do
      let ks ← string_pack_to k
      let hd ← value_pack_to v
      let tl ← entries_pack_body rest
      .ok (ks ++ hd ++ tl)

/-- Embeds `TinyStructBody` packing of a `Node` (`struct_body.rs`, `structs.rs`):
`TinySizeMarker { TinyStruct, FIELDS = 3 }`, signature `0x4E`, then the
three fields. -/
def node_pack_to : Node → Except PackErr (List Nat)
  | .mk id labels props => do
      let ls ← string_list_pack_to labels
      let header ← container_header 0xA0 0xD8 0xD9 0xDA props.length
      let body ← entries_pack_body props
      .ok ([combine_nibble 0xB0 3, 0x4E] ++ i64_pack_to id ++ ls ++ header ++ body)

/-- Embeds `TinyStructBody` packing of an `UnboundRelationship` (signature
`0x72`, 3 fields). -/
def unbound_pack_to : UnboundRelationship → Except PackErr (List Nat)
  | .mk id type_s props => do
      let ts ← string_pack_to type_s
      let header ← container_header 0xA0 0xD8 0xD9 0xDA props.length
      let body ← entries_pack_body props
      .ok ([combine_nibble 0xB0 3, 0x72] ++ i64_pack_to id ++ ts ++ header ++ body)

/-- Embeds `TinyStructBody` packing of a `Relationship` (signature `0x52`,
5 fields). -/
def relationship_pack_to : Relationship → Except PackErr (List Nat)
  | .mk id s e type_s props => do
      let ts ← string_pack_to type_s
      let header ← container_header 0xA0 0xD8 0xD9 0xDA props.length
      let body ← entries_pack_body props
      .ok ([combine_nibble 0xB0 5, 0x52] ++ i64_pack_to id ++ i64_pack_to s ++
           i64_pack_to e ++ ts ++ header ++ body)

/-- Embeds `TinyStructBody` packing of a `Path` (signature `0x50`, 3 fields:
`ValueList<Node>`, `ValueList<UnboundRelationship>`, `ValueList<i64>`). -/
def path_pack_to : Path → Except PackErr (List Nat)
  | .mk nodes rels seq => do
      let nh ← container_header 0x90 0xD4 0xD5 0xD6 nodes.length
      let nb ← nodes_pack_body nodes
      let rh ← container_header 0x90 0xD4 0xD5 0xD6 rels.length
      let rb ← unbounds_pack_body rels
      let sq ← i64_list_pack_to seq
      .ok ([combine_nibble 0xB0 3, 0x50] ++ nh ++ nb ++ rh ++ rb ++ sq)

/-- Body of a packed `ValueList<Node>`. -/
def nodes_pack_body : List Node → Except PackErr (List Nat)
  | [] => .ok []
  | n :: rest => do
      let hd ← node_pack_to n
      let tl ← nodes_pack_body rest
      .ok (hd ++ tl)

/-- Body of a packed `ValueList<UnboundRelationship>`. -/
def unbounds_pack_body : List UnboundRelationship → Except PackErr (List Nat)
  | [] => .ok []
  | u :: rest => do
      let hd ← unbound_pack_to u
      let tl ← unbounds_pack_body rest
      .ok (hd ++ tl)
end

/-! Section: PackStream decoding -/

/-- Reading one byte as a signed `i8` (`i8::fixed_body_from` via
`read_i8`). -/
def readI8 (input : List Nat) : Except UnpackErr (Int × List Nat) :=
  match input with
  | [] => .error .truncated
  | b :: rest => .ok (if b ≥ 128 then (b : Int) - 256 else (b : Int), rest)

/-- Reading two bytes as a big-endian signed `i16`. -/
def readI16 (input : List Nat) : Except UnpackErr (Int × List Nat) :=
  match input with
  | b0 :: b1 :: rest =>
      let n := b0 * 256 + b1
      .ok (if n ≥ 32768 then (n : Int) - 65536 else (n : Int), rest)
  | _ => .error .truncated

/-- Reading four bytes as a big-endian signed `i32`. -/
def readI32 (input : List Nat) : Except UnpackErr (Int × List Nat) :=
  match input with
  | b0 :: b1 :: b2 :: b3 :: rest =>
      let n := ((b0 * 256 + b1) * 256 + b2) * 256 + b3
      .ok (if n ≥ 2147483648 then (n : Int) - 4294967296 else (n : Int), rest)
  | _ => .error .truncated

/-- Reading eight bytes as a big-endian signed `i64`. -/
def readI64 (input : List Nat) : Except UnpackErr (Int × List Nat) :=
  match input with
  | b0 :: b1 :: b2 :: b3 :: b4 :: b5 :: b6 :: b7 :: rest =>
      let n := ((((((b0 * 256 + b1) * 256 + b2) * 256 + b3) * 256 + b4) *
                256 + b5) * 256 + b6) * 256 + b7
      .ok (if n ≥ 9223372036854775808 then
             (n : Int) - 18446744073709551616 else (n : Int), rest)
  | _ => .error .truncated

/-- Reading eight bytes as a big-endian `f64` bit pattern. -/
def readF64 (input : List Nat) : Except UnpackErr (Nat × List Nat) :=
  match input with
  | b0 :: b1 :: b2 :: b3 :: b4 :: b5 :: b6 :: b7 :: rest =>
      .ok (((((((b0 * 256 + b1) * 256 + b2) * 256 + b3) * 256 + b4) *
            256 + b5) * 256 + b6) * 256 + b7, rest)
  | _ => .error .truncated

/-- Reading one byte as a `u8` size (`read_u8`, errors at end of input). -/
def readU8 (input : List Nat) : Except UnpackErr (Nat × List Nat) :=
  match input with
  | [] => .error .truncated
  | b :: rest => .ok (b, rest)

/-- Reading two bytes as a big-endian `u16` size. -/
def readU16 (input : List Nat) : Except UnpackErr (Nat × List Nat) :=
  match input with
  | b0 :: b1 :: rest => .ok (b0 * 256 + b1, rest)
  | _ => .error .truncated

/-- Reading four bytes as a big-endian `u32` size. -/
def readU32 (input : List Nat) : Except UnpackErr (Nat × List Nat) :=
  match input with
  | b0 :: b1 :: b2 :: b3 :: rest =>
      .ok (((b0 * 256 + b1) * 256 + b2) * 256 + b3, rest)
  | _ => .error .truncated

/-- String body of a declared size: `bolt_read_exact` reads through
`Read::take(size)` and `read_to_string`, which stops early at end of input
without error; UTF-8 validation is not modelled (strings are byte lists). -/
def string_body_from (size : Nat) (input : List Nat) :
    Except UnpackErr (List Nat × List Nat) :=
  .ok (input.take size, input.drop size)

/-- Embeds `impl Unpackable for i64` from `packing/unpack.rs`.  In the
`MinusTinyInt` branch the source passes the whole marker byte `u` to
`MinusTinyInt::new_unchecked`, and `i8::from(MinusTinyInt)` evaluates
`i8::try_from(u).unwrap()`, which panics whenever `u > 127` (which holds
for every byte whose marker is `MinusTinyInt`); the panic is modelled by
`crash`. -/
def i64_unpack_from (input : List Nat) : Except UnpackErr (Int × List Nat) :=
  match input with
  | [] => .error .truncated
  | u :: rest =>
    match markerOfByte u with
    | .error e => .error e
    | .ok m =>
      match m with
      | .MinusTinyInt =>
          if u ≤ 127 then .ok (-(u : Int) - 1, rest) else .error .crash
      | .PlusTinyInt => .ok ((u : Int), rest)
      | .Int8 => readI8 rest
      | .Int16 => readI16 rest
      | .Int32 => readI32 rest
      | .Int64 => readI64 rest
      | _ => .error .unexpectedMarker

/-- Embeds `impl Unpackable for String` from `packing/unpack.rs`: a
`TinySizeMarker` read, then the sized body. -/
def string_unpack_from (input : List Nat) :
    Except UnpackErr (List Nat × List Nat) :=
  match input with
  | [] => .error .truncated
  | b :: rest =>
    match markerOfByte b with
    | .error e => .error e
    | .ok m =>
      match m with
      | .TinyString => string_body_from (low_nibble b) rest
      | .String8 => do
          let (size, rest') ← readU8 rest
          string_body_from size rest'
      | .String16 => do
          let (size, rest') ← readU16 rest
          string_body_from size rest'
      | .String32 => do
          let (size, rest') ← readU32 rest
          string_body_from size rest'
      | _ => .error .unexpectedMarker

/-- Body of a `ValueList<String>`: `size` strings in sequence. -/
def string_list_body_from : Nat → List Nat →
    Except UnpackErr (List (List Nat) × List Nat)
  | 0, input => .ok ([], input)
  | n + 1, input => do
      let (s, rest) ← string_unpack_from input
      let (ss, rest') ← string_list_body_from n rest
      .ok (s :: ss, rest')

/-- Embeds `impl Unpackable for ValueList<String>` (the `labels` of a `Node`). -/
def string_list_unpack_from (input : List Nat) :
    Except UnpackErr (List (List Nat) × List Nat) :=
  match input with
  | [] => .error .truncated
  | b :: rest =>
    match markerOfByte b with
    | .error e => .error e
    | .ok m =>
      match m with
      | .TinyList => string_list_body_from (low_nibble b) rest
      | .List8 => do
          let (size, rest') ← readU8 rest
          string_list_body_from size rest'
      | .List16 => do
          let (size, rest') ← readU16 rest
          string_list_body_from size rest'
      | .List32 => do
          let (size, rest') ← readU32 rest
          string_list_body_from size rest'
      | _ => .error .unexpectedMarker

/-- Body of a `ValueList<i64>`: `size` integers decoded with the standalone
`i64` decoder. -/
def i64_list_body_from : Nat → List Nat →
    Except UnpackErr (List Int × List Nat)
  | 0, input => .ok ([], input)
  | n + 1, input => do
      let (i, rest) ← i64_unpack_from input
      let (is, rest') ← i64_list_body_from n rest
      .ok (i :: is, rest')

/-- Embeds `impl Unpackable for ValueList<i64>` (the `sequence` of a `Path`). -/
def i64_list_unpack_from (input : List Nat) :
    Except UnpackErr (List Int × List Nat) :=
  match input with
  | [] => .error .truncated
  | b :: rest =>
    match markerOfByte b with
    | .error e => .error e
    | .ok m =>
      match m with
      | .TinyList => i64_list_body_from (low_nibble b) rest
      | .List8 => do
          let (size, rest') ← readU8 rest
          i64_list_body_from size rest'
      | .List16 => do
          let (size, rest') ← readU16 rest
          i64_list_body_from size rest'
      | .List32 => do
          let (size, rest') ← readU32 rest
          i64_list_body_from size rest'
      | _ => .error .unexpectedMarker

mutual
/-- Embeds `impl Unpackable for Value` from `value.rs`; the fuel argument only
bounds recursion depth in this embedding.  The `MinusTinyInt` branch here
uses `MinusTinyInt::unpack_from`, which correctly takes the low nibble.
`Struct8`/`Struct16` hit `unimplemented!()` in the source, a panic. -/
def value_unpack_from : Nat → List Nat → Except UnpackErr (Value × List Nat)
  | 0, _ => .error .outOfFuel
  | fuel + 1, input =>
    match input with
    | [] => .error .truncated
    | b :: rest =>
      match markerOfByte b with
      | .error e => .error e
      | .ok m =>
        match m with
        | .Null => .ok (.null, rest)
        | .BoolFalse => .ok (.boolean false, rest)
        | .BoolTrue => .ok (.boolean true, rest)
        | .TinyString => do
            let (s, rest') ← string_body_from (low_nibble b) rest
            .ok (.string s, rest')
        | .String8 => do
            let (size, rest') ← readU8 rest
            let (s, rest'') ← string_body_from size rest'
            .ok (.string s, rest'')
        | .String16 => do
            let (size, rest') ← readU16 rest
            let (s, rest'') ← string_body_from size rest'
            .ok (.string s, rest'')
        | .String32 => do
            let (size, rest') ← readU32 rest
            let (s, rest'') ← string_body_from size rest'
            .ok (.string s, rest'')
        | .TinyList => do
            let (vs, rest') ← values_body_from fuel (low_nibble b) rest
            .ok (.list vs, rest')
        | .List8 => do
            let (size, rest') ← readU8 rest
            let (vs, rest'') ← values_body_from fuel size rest'
            .ok (.list vs, rest'')
        | .List16 => do
            let (size, rest') ← readU16 rest
            let (vs, rest'') ← values_body_from fuel size rest'
            .ok (.list vs, rest'')
        | .List32 => do
            let (size, rest') ← readU32 rest
            let (vs, rest'') ← values_body_from fuel size rest'
            .ok (.list vs, rest'')
        | .TinyMap => do
            let (es, rest') ← entries_body_from fuel (low_nibble b) rest
            .ok (.map es, rest')
        | .Map8 => do
            let (size, rest') ← readU8 rest
            let (es, rest'') ← entries_body_from fuel size rest'
            .ok (.map es, rest'')
        | .Map16 => do
            let (size, rest') ← readU16 rest
            let (es, rest'') ← entries_body_from fuel size rest'
            .ok (.map es, rest'')
        | .Map32 => do
            let (size, rest') ← readU32 rest
            let (es, rest'') ← entries_body_from fuel size rest'
            .ok (.map es, rest'')
        | .MinusTinyInt => .ok (.integer (-(low_nibble b : Int) - 1), rest)
        | .PlusTinyInt => .ok (.integer (b : Int), rest)
        | .Int8 => do
            let (i, rest') ← readI8 rest
            .ok (.integer i, rest')
        | .Int16 => do
            let (i, rest') ← readI16 rest
            .ok (.integer i, rest')
        | .Int32 => do
            let (i, rest') ← readI32 rest
            .ok (.integer i, rest')
        | .Int64 => do
            let (i, rest') ← readI64 rest
            .ok (.integer i, rest')
        | .Float64 => do
            let (bits, rest') ← readF64 rest
            .ok (.float bits, rest')
        | .TinyStruct =>
            match rest with
            | [] => .error .truncated
            | sig :: rest' =>
              if sig = 0x4E then do
                let (n, rest'') ← node_body_from fuel rest'
                .ok (.node n, rest'')
              else if sig = 0x50 then do
                let (p, rest'') ← path_body_from fuel rest'
                .ok (.path p, rest'')
              else if sig = 0x52 then do
                let (r, rest'') ← relationship_body_from fuel rest'
                .ok (.relationship r, rest'')
              else if sig = 0x72 then do
                let (u, rest'') ← unbound_body_from fuel rest'
                .ok (.unboundRelationship u, rest'')
              else if sig = 0x01 ∨ sig = 0x10 ∨ sig = 0x2F ∨ sig = 0x3F ∨
                      sig = 0x0E ∨ sig = 0x0F ∨ sig = 0x71 ∨ sig = 0x70 ∨
                      sig = 0x7F ∨ sig = 0x7E then
                .error .unexpectedSignature
              else .error (.unknownSignature sig)
        | .Struct8 => .error .crash
        | .Struct16 => .error .crash

/-- Body loop of `ValueList<Value>::unpack_body`. -/
def values_body_from : Nat → Nat → List Nat →
    Except UnpackErr (List Value × List Nat)
  | 0, _, _ => .error .outOfFuel
  | _ + 1, 0, input => .ok ([], input)
  | fuel + 1, n + 1, input => do
      let (v, rest) ← value_unpack_from fuel input
      let (vs, rest') ← values_body_from fuel n rest
      .ok (v :: vs, rest')

/-- Body loop of `ValueMap<Value>::unpack_body`: string key, then value. -/
def entries_body_from : Nat → Nat → List Nat →
    Except UnpackErr (List (List Nat × Value) × List Nat)
  | 0, _, _ => .error .outOfFuel
  | _ + 1, 0, input => .ok ([], input)
  | fuel + 1, n + 1, input => do
      let (k, rest) ← string_unpack_from input
      let (v, rest') ← value_unpack_from fuel rest
      let (es, rest'') ← entries_body_from fuel n rest'
      .ok ((k, v) :: es, rest'')

/-- Embeds `impl Unpackable for ValueMap<Value>` (the `properties` of the graph
structures). -/
def map_unpack_from : Nat → List Nat →
    Except UnpackErr (List (List Nat × Value) × List Nat)
  | 0, _ => .error .outOfFuel
  | fuel + 1, input =>
    match input with
    | [] => .error .truncated
    | b :: rest =>
      match markerOfByte b with
      | .error e => .error e
      | .ok m =>
        match m with
        | .TinyMap => entries_body_from fuel (low_nibble b) rest
        | .Map8 => do
            let (size, rest') ← readU8 rest
            entries_body_from fuel size rest'
        | .Map16 => do
            let (size, rest') ← readU16 rest
            entries_body_from fuel size rest'
        | .Map32 => do
            let (size, rest') ← readU32 rest
            entries_body_from fuel size rest'
        | _ => .error .unexpectedMarker

/-- Embeds `Node::read_body_from` (generated by `bolt_tiny_struct!`): the
`node_identity` is decoded with the standalone `i64` decoder (the one that
panics on `MinusTinyInt` bytes), then labels and properties. -/
def node_body_from : Nat → List Nat → Except UnpackErr (Node × List Nat)
  | 0, _ => .error .outOfFuel
  | fuel + 1, input => do
      let (id, rest) ← i64_unpack_from input
      let (labels, rest') ← string_list_unpack_from rest
      let (props, rest'') ← map_unpack_from fuel rest'
      .ok (.mk id labels props, rest'')

/-- Embeds `UnboundRelationship::read_body_from`. -/
def unbound_body_from : Nat → List Nat →
    Except UnpackErr (UnboundRelationship × List Nat)
  | 0, _ => .error .outOfFuel
  | fuel + 1, input => do
      let (id, rest) ← i64_unpack_from input
      let (ts, rest') ← string_unpack_from rest
      let (props, rest'') ← map_unpack_from fuel rest'
      .ok (.mk id ts props, rest'')

/-- Embeds `Relationship::read_body_from`. -/
def relationship_body_from : Nat → List Nat →
    Except UnpackErr (Relationship × List Nat)
  | 0, _ => .error .outOfFuel
  | fuel + 1, input => do
      let (id, rest) ← i64_unpack_from input
      let (s, rest1) ← i64_unpack_from rest
      let (e, rest2) ← i64_unpack_from rest1
      let (ts, rest3) ← string_unpack_from rest2
      let (props, rest4) ← map_unpack_from fuel rest3
      .ok (.mk id s e ts props, rest4)

/-- Embeds `Path::read_body_from`: `ValueList<Node>`, then
`ValueList<UnboundRelationship>`, then `ValueList<i64>`. -/
def path_body_from : Nat → List Nat → Except UnpackErr (Path × List Nat)
  | 0, _ => .error .outOfFuel
  | fuel + 1, input => do
      let (nodes, rest) ← nodes_list_unpack_from fuel input
      let (rels, rest') ← unbounds_list_unpack_from fuel rest
      let (seq, rest'') ← i64_list_unpack_from rest'
      .ok (.mk nodes rels seq, rest'')

/-- Embeds `impl Unpackable for ValueList<Node>`. -/
def nodes_list_unpack_from : Nat → List Nat →
    Except UnpackErr (List Node × List Nat)
  | 0, _ => .error .outOfFuel
  | fuel + 1, input =>
    match input with
    | [] => .error .truncated
    | b :: rest =>
      match markerOfByte b with
      | .error e => .error e
      | .ok m =>
        match m with
        | .TinyList => nodes_body_from fuel (low_nibble b) rest
        | .List8 => do
            let (size, rest') ← readU8 rest
            nodes_body_from fuel size rest'
        | .List16 => do
            let (size, rest') ← readU16 rest
            nodes_body_from fuel size rest'
        | .List32 => do
            let (size, rest') ← readU32 rest
            nodes_body_from fuel size rest'
        | _ => .error .unexpectedMarker

/-- Body loop over whole `Node` structures (marker `0xB3`, signature
check included, per the generic `Unpackable` of `TinyStructBody`). -/
def nodes_body_from : Nat → Nat → List Nat →
    Except UnpackErr (List Node × List Nat)
  | 0, _, _ => .error .outOfFuel
  | _ + 1, 0, input => .ok ([], input)
  | fuel + 1, n + 1, input => do
      let (nd, rest) ← node_struct_unpack_from fuel input
      let (ns, rest') ← nodes_body_from fuel n rest
      .ok (nd :: ns, rest')

/-- Embeds `Node::unpack_from` (generic `TinyStructBody` unpacking): expected
`TinyStruct` marker, size check against `FIELDS = 3`, expected signature
`0x4E`, then the body. -/
def node_struct_unpack_from : Nat → List Nat →
    Except UnpackErr (Node × List Nat)
  | 0, _ => .error .outOfFuel
  | fuel + 1, input =>
    match input with
    | [] => .error .truncated
    | b :: rest =>
      match markerOfByte b with
      | .error e => .error e
      | .ok m =>
        if m = .TinyStruct then
          if low_nibble b = 3 then
            match rest with
            | [] => .error .truncated
            | sig :: rest' =>
              if sig = 0x4E then node_body_from fuel rest'
              else .error .unexpectedSignature
          else .error .unexpectedSignatureSize
        else .error .unexpectedMarker

/-- Embeds `impl Unpackable for ValueList<UnboundRelationship>`. -/
def unbounds_list_unpack_from : Nat → List Nat →
    Except UnpackErr (List UnboundRelationship × List Nat)
  | 0, _ => .error .outOfFuel
  | fuel + 1, input =>
    match input with
    | [] => .error .truncated
    | b :: rest =>
      match markerOfByte b with
      | .error e => .error e
      | .ok m =>
        match m with
        | .TinyList => unbounds_body_from fuel (low_nibble b) rest
        | .List8 => do
            let (size, rest') ← readU8 rest
            unbounds_body_from fuel size rest'
        | .List16 => do
            let (size, rest') ← readU16 rest
            unbounds_body_from fuel size rest'
        | .List32 => do
            let (size, rest') ← readU32 rest
            unbounds_body_from fuel size rest'
        | _ => .error .unexpectedMarker

/-- Body loop over whole `UnboundRelationship` structures. -/
def unbounds_body_from : Nat → Nat → List Nat →
    Except UnpackErr (List UnboundRelationship × List Nat)
  | 0, _, _ => .error .outOfFuel
  | _ + 1, 0, input => .ok ([], input)
  | fuel + 1, n + 1, input => do
      let (u, rest) ← unbound_struct_unpack_from fuel input
      let (us, rest') ← unbounds_body_from fuel n rest
      .ok (u :: us, rest')

/-- Embeds `UnboundRelationship::unpack_from`: `TinyStruct` marker with size 3,
signature `0x72`, then the body. -/
def unbound_struct_unpack_from : Nat → List Nat →
    Except UnpackErr (UnboundRelationship × List Nat)
  | 0, _ => .error .outOfFuel
  | fuel + 1, input =>
    match input with
    | [] => .error .truncated
    | b :: rest =>
      match markerOfByte b with
      | .error e => .error e
      | .ok m =>
        if m = .TinyStruct then
          if low_nibble b = 3 then
            match rest with
            | [] => .error .truncated
            | sig :: rest' =>
              if sig = 0x72 then unbound_body_from fuel rest'
              else .error .unexpectedSignature
          else .error .unexpectedSignatureSize
        else .error .unexpectedMarker
end

/-! Section: Chunked message framing (`ll/message.rs`, `messaging/chunk.rs`) -/

/-- A `Chunk` (`messaging/chunk.rs`): a fixed capacity and the bytes
written so far (`written` is the length of `bytes`; the read cursor is not
needed for the framing functions). -/
structure Chunk where
  capacity : Nat
  bytes : List Nat
deriving DecidableEq, Repr

/-- Embeds `Chunk::has_capacity`. -/
def Chunk.hasCapacity (c : Chunk) : Bool := c.bytes.length < c.capacity

/-- Embeds `Chunk::write`: fills the chunk up to its capacity and returns the
leftover bytes, `none` when everything fit.  A full chunk returns all of
the input (even when the input is empty). -/
def Chunk.writeBytes (c : Chunk) (bs : List Nat) :
    Chunk × Option (List Nat) :=
  let free := c.capacity - c.bytes.length
  if 0 < free then
    if free < bs.length then
      (⟨c.capacity, c.bytes ++ bs.take free⟩, some (bs.drop free))
    else (⟨c.capacity, c.bytes ++ bs⟩, none)
  else (c, some bs)

/-- Embeds `Chunk::pack`: the `u16` big-endian written size (`written as u16`
truncates), then the payload bytes. -/
def Chunk.pack (c : Chunk) : List Nat :=
  u16be (c.bytes.length % 65536) ++ c.bytes

/-- Embeds `Chunk::unpack`: two size bytes are read with `Read::read` into a
zero-initialized buffer (so a short stream leaves zero bytes), then
`read_exact` of that many payload bytes, which fails on a short stream. -/
def Chunk.unpack (input : List Nat) : Except UnpackErr (Chunk × List Nat) :=
  let b0 := input.headD 0
  let b1 := (input.drop 1).headD 0
  let size := b0 * 256 + b1
  let rest := input.drop 2
  if size ≤ rest.length then .ok (⟨size, rest.take size⟩, rest.drop size)
  else .error .truncated

/-- A `Message` (`ll/message.rs`): the configured per-chunk capacity and
the chunk list (the cursors are not needed for the framing functions). -/
structure Message where
  chunk_capacity : Nat
  chunks : List Chunk
deriving DecidableEq, Repr

/-- Embeds `Message::new_alloc`: pre-allocates `pre_alloc_chunks` empty chunks of
the given capacity.  The source panics for `chunk_capacity == 0`; all
claims below assume a positive capacity. -/
def Message.new_alloc (pre_alloc_chunks chunk_capacity : Nat) : Message :=
  ⟨chunk_capacity, List.replicate pre_alloc_chunks ⟨chunk_capacity, []⟩⟩

/-- The split of fresh bytes over newly created chunks of capacity `cap`
(the `pull_chunk`/`new_chunk` path of `Message::write` once all existing
chunks are exhausted).  With `cap = 0` the source loops forever; the claims
below assume a positive capacity. -/
def newChunksFor (cap : Nat) (bs : List Nat) : List Chunk :=
  if h : cap = 0 then []
  else if bs.length ≤ cap then [⟨cap, bs⟩]
  else ⟨cap, bs.take cap⟩ :: newChunksFor cap (bs.drop cap)
termination_by bs.length
decreasing_by
  simp only [List.length_drop]
  omega

/-- The `Message::write` loop over the existing chunk list: `pull_chunk`
skips full chunks, `Chunk::write` fills the first one with capacity, and
leftovers continue into later (or newly created) chunks. -/
def writeChunks (cap : Nat) : List Chunk → List Nat → List Chunk
  | [], bs => newChunksFor cap bs
  | c :: rest, bs =>
    if c.hasCapacity then
      match c.writeBytes bs with
      | (c', none) => c' :: rest
      | (c', some leftover) => c' :: writeChunks cap rest leftover
    else c :: writeChunks cap rest bs

/-- Embeds `std::io::Write for Message` restricted to one buffer: writes the
bytes into the message's chunks. -/
def Message.writeBytes (m : Message) (bs : List Nat) : Message :=
  ⟨m.chunk_capacity, writeChunks m.chunk_capacity m.chunks bs⟩

/-- Embeds `Message::pack`: every chunk framed by `Chunk::pack`, then the
terminating empty chunk `0x00 0x00`. -/
def Message.pack (m : Message) : List Nat :=
  (m.chunks.map Chunk.pack).flatten ++ [0, 0]

/-- The loop of `Message::unpack`: read chunks until one of size zero,
collecting them.  The loop is embedded with a fuel argument for
termination only; every iteration past a non-empty chunk consumes at
least three input bytes, so the fuel `input.length + 1` supplied by
`Message.unpack` is never exhausted (`unpackChunksLoopF_stable` below
shows the result does not depend on the fuel). -/
def unpackChunksLoopF : Nat → List Nat →
    Except UnpackErr (List Chunk × List Nat)
  | 0, _ => .error .truncated
  | fuel + 1, input =>
    match Chunk.unpack input with
    | .error e => .error e
    | .ok (c, rest) =>
      if c.capacity = 0 then .ok ([], rest)
      else
        match unpackChunksLoopF fuel rest with
        | .error e => .error e
        | .ok (cs, rest') => .ok (c :: cs, rest')

/-- Embeds `Message::unpack`: the chunk loop; the new message's chunk capacity is
the size of the first chunk read (zero when the terminator comes first). -/
def Message.unpack (input : List Nat) :
    Except UnpackErr (Message × List Nat) :=
  match unpackChunksLoopF (input.length + 1) input with
  | .error e => .error e
  | .ok (cs, rest) =>
      .ok (⟨((cs.head?.map Chunk.capacity).getD 0), cs⟩, rest)

/-- The readable byte content of a message (`std::io::Read for Message`
reads the chunks' bytes in sequence). -/
def Message.content (m : Message) : List Nat :=
  (m.chunks.map Chunk.bytes).flatten

/-- Errors of the legacy blocking message reader
(`packing/message.rs`). -/
inductive MessageReadErr where
  | readIOError
  | emptyChunk
deriving DecidableEq, Repr

/-- The chunk-collecting loop of the legacy
`MessageRead::read_from_message` (`packing/message.rs`): reads a `u16` size
(two exact bytes), stops at size zero, otherwise reads exactly that many
payload bytes and continues.  Fuel as in `unpackChunksLoopF`: each
iteration consumes at least three bytes, so `input.length + 1` is never
exhausted. -/
def readMessageChunksF : Nat → List Nat →
    Except MessageReadErr (List Nat × List Nat)
  | 0, _ => .error .readIOError
  | fuel + 1, input =>
    match input with
    | b0 :: b1 :: rest =>
        if b0 * 256 + b1 = 0 then .ok ([], rest)
        else
          if b0 * 256 + b1 ≤ rest.length then
            match readMessageChunksF fuel (rest.drop (b0 * 256 + b1)) with
            | .error e => .error e
            | .ok (data, rest') =>
                .ok (rest.take (b0 * 256 + b1) ++ data, rest')
          else .error .readIOError
    | _ => .error .readIOError

/-- Embeds `MessageRead::read_from_message` up to the final PackStream decode of
the collected bytes: concatenates chunk payloads until the terminator and
fails with `EmptyChunk` when no payload byte arrived before it.  (The
caller then runs `V::unpack_from` on the returned data.) -/
def read_from_message (input : List Nat) :
    Except MessageReadErr (List Nat × List Nat) :=
  match readMessageChunksF (input.length + 1) input with
  | .error e => .error e
  | .ok (data, rest) =>
      if data.isEmpty then .error .emptyChunk else .ok (data, rest)

/-! Section: Connection layer (`connectivity/connection.rs`, `version.rs`,
`messaging/response.rs`, `connectivity/stream_result.rs`) -/

/-- Embeds `Version` (`connectivity/version.rs`). -/
structure Version where
  min : Nat
  maj : Nat
deriving DecidableEq, Repr

/-- Embeds `Version::is_empty`. -/
def Version.is_empty (v : Version) : Bool := v.min = 0 && v.maj = 0

/-- Embeds `Version::encode`: `[0, 0, minor, major]`. -/
def Version.encode (v : Version) : List Nat := [0, 0, v.min, v.maj]

/-- Embeds `Version::decode`: major from byte 3, minor from byte 2; the first two
bytes are ignored. -/
def Version.decode (b0 b1 b2 b3 : Nat) : Version := ⟨b2, b3⟩

/-- The connection `State` enum of `connectivity/connection.rs` — it has
exactly the three variants `Connected`, `Ready` and `Closed`. -/
inductive State where
  | Connected
  | Ready
  | Closed
deriving DecidableEq, Repr

/-- A metadata value inside a response dictionary, as far as the
connection layer inspects it (`packs::Dictionary` property values):
booleans, integers, strings; everything else is opaque. -/
inductive MVal where
  | b (x : Bool)
  | i (x : Int)
  | s (x : String)
  | other
deriving DecidableEq, Repr

/-- A response metadata dictionary: association list in iteration order. -/
def Metadata := List (String × MVal)

/-- Embeds `Dictionary::get_property`: first entry with the key. -/
def getProperty (meta : Metadata) (key : String) : Option MVal :=
  (meta.find? (fun e => e.fst = key)).map Prod.snd

/-- Embeds `Success` (`messaging/response.rs`). -/
structure Success where
  metadata : Metadata

/-- Embeds `Failure` (`messaging/response.rs`). -/
structure Failure where
  metadata : Metadata

/-- Embeds `Record` (`messaging/response.rs`): its `data` payload is opaque to the
pull loop. -/
structure Record where
  data : List MVal

/-- Embeds `Success::has_more`: the typed `has_more` property if present and a
boolean, defaulting to `false` (also when absent). -/
def Success.has_more (s : Success) : Bool :=
  match getProperty s.metadata "has_more" with
  | some (.b x) => x
  | _ => false

/-- Embeds `Failure::message` (`extract_property_typed` with an `<unknown>`
default). -/
def Failure.message (f : Failure) : String :=
  match getProperty f.metadata "message" with
  | some (.s x) => x
  | _ => "<unknown>"

/-- Embeds `Failure::code`. -/
def Failure.code (f : Failure) : String :=
  match getProperty f.metadata "code" with
  | some (.s x) => x
  | _ => "<unknown>"

/-- The `Response` enum (`messaging/response.rs`). -/
inductive Response where
  | success (s : Success)
  | ignored
  | failure (f : Failure)
  | record (r : Record)

/-- Embeds `ConnectionError` (`connectivity/connection.rs`), restricted to the
variants the embedded operations can produce; an exhausted response stream
is an `IOError` of the underlying reader. -/
inductive ConnErr where
  | ioError
  | versionsNotSupportedByServer
  | authenticationError (message code : String)
  | unexpectedResponse
  | failureResponse (code message : String)

/-- Embeds `StreamResult` (`connectivity/stream_result.rs`). -/
inductive StreamResult where
  | ignored
  | hasMore (records : List Record)
  | finished (s : Success) (records : List Record)

/-- The response loop of `Connection::pull` after the `PULL` request went
out: `RECORD`s are pushed onto `results` in arrival order; a `SUCCESS`
returns `HasMore(results)` when `has_more` and `Finished(s, results)`
otherwise; a `FAILURE` becomes the error `FailureResponse(code, message)`;
an `IGNORED` returns `StreamResult::Ignored`, dropping `results`.  The
unread remainder of the response stream is returned alongside. -/
def pullLoop (results : List Record) :
    List Response → Except ConnErr (StreamResult × List Response)
  | [] => .error .ioError
  | .record r :: rest => pullLoop (results ++ [r]) rest
  | .success s :: rest =>
      if s.has_more then .ok (.hasMore results, rest)
      else .ok (.finished s results, rest)
  | .failure f :: rest => .error (.failureResponse (f.code) (f.message))
  | .ignored :: rest => .ok (.ignored, rest)

/-- Embeds `Connection::pull` on the response side: the loop starting from an
empty record buffer, with the connection state carried unchanged — the
source never assigns `self.state` anywhere in `pull`. -/
def connectionPull (st : State) (responses : List Response) :
    Except ConnErr (StreamResult × List Response) × State :=
  (pullLoop [] responses, st)

/-- The response handling of `Connection::handshake` once the server's four
reply bytes arrived: an empty decoded version means
`VersionsNotSupportedByServer` and `Closed`; otherwise the version is
returned and the state becomes `Ready`. -/
def handshakeReply (_st : State) (b0 b1 b2 b3 : Nat) :
    Except ConnErr Version × State :=
  let version := Version.decode b0 b1 b2 b3
  if version.is_empty then (.error .versionsNotSupportedByServer, .Closed)
  else (.ok version, .Ready)

/-- The response handling of `Connection::auth_hello`: `SUCCESS` keeps the
state, `FAILURE` becomes an `AuthenticationError` and closes, anything
else is an `UnexpectedResponse` and closes. -/
def authHelloReply (st : State) (response : Response) :
    Except ConnErr Success × State :=
  match response with
  | .success s => (.ok s, st)
  | .failure f => (.error (.authenticationError (f.message) (f.code)), .Closed)
  | _ => (.error .unexpectedResponse, .Closed)

/-! Section: `CommitPrepare` encoding (`messaging/commit_prepare.rs`)

`encode_property` and the value encodings come from the external `packs`
crate; the encoding is therefore modelled one level above raw bytes, as the
emitted dictionary header size together with the ordered list of emitted
`(key, value)` properties. -/

/-- An encoded property value, at the granularity the `CommitPrepare`
encoder emits them. -/
inductive EncVal where
  | strList (xs : List String)
  | int (i : Int)
  | dict (entries : List (String × EncVal))
  | str (s : String)

/-- Embeds `CommitMode` (`messaging/commit_prepare.rs`). -/
inductive CommitMode where
  | Read
  | Write
deriving DecidableEq, Repr

/-- Embeds `impl Pack for CommitMode`: `Read` encodes the string `"r"`, `Write`
the string `"w"`. -/
def CommitMode.encode : CommitMode → EncVal
  | .Read => .str "r"
  | .Write => .str "w"

/-- Embeds `CommitPrepare` (`messaging/commit_prepare.rs`); the `tx_metadata`
dictionary is kept abstract as its emitted entry list. -/
structure CommitPrepare where
  bookmarks : List String
  tx_timeout : Option Int
  tx_metadata : List (String × EncVal)
  mode : Option CommitMode
  db : Option String

/-- Embeds `impl Pack for CommitPrepare`: the `TinyDictionary(fields)` header
counts the set fields, then each set field is emitted as a property in
source order; unset fields are skipped entirely. -/
def CommitPrepare.encode (cp : CommitPrepare) :
    Nat × List (String × EncVal) :=
  let fields :=
    (if cp.bookmarks.length > 0 then 1 else 0) +
    (if cp.tx_timeout.isSome then 1 else 0) +
    (if cp.tx_metadata.length > 0 then 1 else 0) +
    (if cp.mode.isSome then 1 else 0) +
    (if cp.db.isSome then 1 else 0)
  let props :=
    (if cp.bookmarks.length > 0 then
       [("bookmarks", EncVal.strList cp.bookmarks)] else []) ++
    (match cp.tx_timeout with
     | some t => [("tx_timeout", EncVal.int t)]
     | none => []) ++
    (if cp.tx_metadata.length > 0 then
       [("tx_metadata", EncVal.dict cp.tx_metadata)] else []) ++
    (match cp.mode with
     | some m => [("mode", m.encode)]
     | none => []) ++
    (match cp.db with
     | some d => [("db", EncVal.str d)]
     | none => [])
  (fields, props)

/-! Section: Specification-side definitions, for comparison with the embedded
code -/

/-- The byte length of the minimal integer form per value range: one byte
for the tiny forms `[-16, 127]`, two for `Int8`, three for `Int16`, five
for `Int32` and nine for `Int64`. -/
def intMarkerLen (i : Int) : Nat :=
  if -16 ≤ i ∧ i ≤ 127 then 1
  else if -128 ≤ i ∧ i ≤ 127 then 2
  else if -32768 ≤ i ∧ i ≤ 32767 then 3
  else if -2147483648 ≤ i ∧ i ≤ 2147483647 then 5
  else 9

/-- The specified greedy chunking of a payload: successive pieces of at
most `cap` bytes, none empty. -/
def splitNE (cap : Nat) (bs : List Nat) : List (List Nat) :=
  if cap = 0 then []
  else if bs = [] then []
  else if bs.length ≤ cap then [bs]
  else bs.take cap :: splitNE cap (bs.drop cap)
termination_by bs.length
decreasing_by
  simp only [List.length_drop]
  omega

/-! Section: Theorems -/

/-- Claim C1: the PackStream `Value` round-trip fails on the code — packing
the node `Node { node_identity: -1, labels: [], properties: {} }` yields
the bytes `B3 4E F0 90 A0`, but unpacking them panics:
`Node::read_body_from` decodes the identity with the standalone `i64`
decoder, which hands the whole marker byte `0xF0` to
`MinusTinyInt::new_unchecked`, and `i8::try_from(0xF0).unwrap()` panics
(modelled by the `crash` error) instead of returning the node. -/
theorem c1_node_roundtrip_crashes :
    value_pack_to (.node (.mk (-1) [] [])) =
      .ok [0xB3, 0x4E, 0xF0, 0x90, 0xA0] ∧
    value_unpack_from 100 [0xB3, 0x4E, 0xF0, 0x90, 0xA0] = .error .crash := by
  constructor
  · simp only [value_pack_to, node_pack_to, i64_pack_to,
      string_list_pack_to, strings_pack_body, container_header,
      combine_nibble, entries_pack_body]
    rfl
  · simp only [value_unpack_from, markerOfByte, high_nibble,
      node_body_from, i64_unpack_from]
    rfl

/-- Claim C2 (as stated) is false on the code: `-1` packs to the single
byte `0xF0`, not `0xFF`. -/
theorem c2_counterexample :
    i64_pack_to (-1) = [0xF0] ∧ i64_pack_to (-1) ≠ [0xFF] := by
  constructor <;> decide

/-- Claim C2 (amended): integer packing chooses the minimal form for every
`i64`, with `0 ↦ 00`, `127 ↦ 7F`, `-1 ↦ F0`, `-16 ↦ FF` (the low nibble
holds `-i - 1`), `-17 ↦ C8 EF`, `128 ↦ C9 00 80`, `32767 ↦ C9 7F FF` and
`32768 ↦ CA 00 00 80 00`; in general the encoded length is the minimal
marker length for the value's range. -/
theorem c2_integer_minimal_marker :
    i64_pack_to 0 = [0x00] ∧ i64_pack_to 127 = [0x7F] ∧
    i64_pack_to (-1) = [0xF0] ∧ i64_pack_to (-16) = [0xFF] ∧
    i64_pack_to (-17) = [0xC8, 0xEF] ∧ i64_pack_to 128 = [0xC9, 0x00, 0x80] ∧
    i64_pack_to 32767 = [0xC9, 0x7F, 0xFF] ∧
    i64_pack_to 32768 = [0xCA, 0x00, 0x00, 0x80, 0x00] ∧
    ∀ i : Int, (i64_pack_to i).length = intMarkerLen i := by
  refine ⟨by decide, by decide, by decide, by decide, by decide, by decide,
    by decide, by decide, ?_⟩
  intro i
  unfold i64_pack_to intMarkerLen
  split_ifs <;>
    simp only [i16be, i32be, i64be, List.length_cons, List.length_nil] <;>
    omega

/-- Claim C10: decoding a standalone `i64` from a `MinusTinyInt` marker
byte `0xF0..0xFF` panics instead of returning `-(low_nibble + 1)`:
`i64::unpack_from` passes the whole marker byte to
`MinusTinyInt::new_unchecked`, and the conversion to `i8` unwraps
`i8::try_from(byte)`, which fails for every byte `>= 0xF0`. -/
theorem c10_minus_tiny_int_decode_crashes (b : Nat) (h1 : 0xF0 ≤ b)
    (h2 : b ≤ 0xFF) (rest : List Nat) :
    i64_unpack_from (b :: rest) = .error .crash := by
  interval_cases b <;>
    simp [i64_unpack_from, markerOfByte, high_nibble]

/-- Witness for C10 at the byte `0xF0`. -/
theorem c10_witness :
    (0xF0 : Nat) ≤ 0xF0 ∧ (0xF0 : Nat) ≤ 0xFF ∧
    i64_unpack_from [0xF0] = .error .crash :=
  ⟨by decide, by decide,
   c10_minus_tiny_int_decode_crashes 0xF0 (by decide) (by decide) []⟩

/-- Claim C4 (as stated) is false on the code: after a `FAILURE` response
to `PULL` from `Ready`, the connection state is still `Ready` — the very
state in which every request is permitted — and the `State` type has no
`Failed` variant at all; the failure only surfaces as the returned
`FailureResponse` error. -/
theorem c4_counterexample :
    (connectionPull .Ready
        [.failure ⟨[("code", .s "Neo.ClientError"), ("message", .s "boom")]⟩]).snd
      = .Ready ∧
    (connectionPull .Ready
        [.failure ⟨[("code", .s "Neo.ClientError"), ("message", .s "boom")]⟩]).fst
      = .error (.failureResponse "Neo.ClientError" "boom") ∧
    State.Ready ≠ State.Closed ∧ State.Ready ≠ State.Connected := by
  refine ⟨rfl, ?_, by decide, by decide⟩
  simp [connectionPull, pullLoop, Failure.code, Failure.message, getProperty]

/-- Claim C4 (amended): the connection's `State` type has exactly the
variants `Connected`, `Ready` and `Closed` (no `Failed` state); `pull`
never changes the state, for any sequence of responses — a `FAILURE` is
surfaced only as an error; the one failure that does change state is an
authentication `FAILURE` to `HELLO`, which closes the connection. -/
theorem c4_state_machine_amended :
    (∀ (st : State) (responses : List Response),
        (connectionPull st responses).snd = st) ∧
    (∀ st : State, st = .Connected ∨ st = .Ready ∨ st = .Closed) ∧
    (∀ (st : State) (f : Failure),
        authHelloReply st (.failure f)
          = (.error (.authenticationError f.message f.code), .Closed)) := by
  refine ⟨fun st rs => rfl, fun st => by cases st <;> simp, fun st f => rfl⟩

/-- Claim C5 (as stated) is false on the code: `Message::unpack` applied
to a stream that starts with the zero-length terminator returns an empty
`Message` (no chunks, chunk capacity `0`), not an error. -/
theorem c5_counterexample :
    Message.unpack [0, 0] = .ok (⟨0, []⟩, []) := by
  unfold Message.unpack
  simp only [unpackChunksLoopF]
  simp [Chunk.unpack]

/-- Claim C5 (amended): on a stream whose first chunk is the zero-length
terminator, `ll::Message::unpack` returns an empty message with no chunks
(and whatever follows the terminator unread), while the legacy
`packing::MessageRead::read_from_message` does treat the empty message as
a protocol error, failing with `EmptyChunk`. -/
theorem c5_empty_message_amended (rest : List Nat) :
    Message.unpack (0 :: 0 :: rest) = .ok (⟨0, []⟩, rest) ∧
    read_from_message (0 :: 0 :: rest) = .error .emptyChunk := by
  constructor
  · unfold Message.unpack
    simp only [unpackChunksLoopF]
    simp [Chunk.unpack]
  · unfold read_from_message
    simp only [readMessageChunksF]
    simp

/-- Claim C8 (as stated) is false on the code: the reply `[1, 0, 0, 0]`
differs from `[0, 0, 0, 0]`, yet the handshake still fails with
`VersionsNotSupportedByServer` and closes, because `Version::decode` reads
only bytes 2 and 3. -/
theorem c8_counterexample :
    ([1, 0, 0, 0] : List Nat) ≠ [0, 0, 0, 0] ∧
    handshakeReply .Connected 1 0 0 0
      = (.error .versionsNotSupportedByServer, .Closed) := by
  exact ⟨by decide, rfl⟩

/-- Claim C8 (amended): the handshake fails with
`VersionsNotSupportedByServer` and transitions to `Closed` exactly when
the decoded version is empty, i.e. when the last two reply bytes (minor,
major) are both zero — the first two bytes are ignored; otherwise the
decoded version is returned and the state becomes `Ready`. -/
theorem c8_handshake_amended (st : State) (b0 b1 b2 b3 : Nat) :
    handshakeReply st b0 b1 b2 b3 =
      if b2 = 0 ∧ b3 = 0 then (.error .versionsNotSupportedByServer, .Closed)
      else (.ok ⟨b2, b3⟩, .Ready) := by
  unfold handshakeReply Version.decode Version.is_empty
  dsimp only
  split_ifs with h1 h2 <;> simp_all

theorem pullLoop_records_shift (acc recs : List Record)
    (responses : List Response) :
    pullLoop acc (recs.map .record ++ responses)
      = pullLoop (acc ++ recs) responses := by
  induction recs generalizing acc with
  | nil => simp
  | cons r rest ih =>
      simp only [List.map_cons, List.cons_append, pullLoop, List.append_eq]
      rw [ih]
      simp

/-- Claim C3: the response loop of `Connection::pull` appends every
`RECORD` to the buffer in arrival order; a `SUCCESS` with `has_more=true`
returns `HasMore(records)` leaving the remaining responses unread; a
`SUCCESS` with `has_more=false` — including when the property is absent,
since `Success::has_more` defaults to `false` — returns
`Finished(success, records)`; a `FAILURE` becomes the
`FailureResponse(code, message)` error; an `IGNORED` returns
`StreamResult::Ignored` carrying no records. -/
theorem c3_pull_loop (recs : List Record) (s : Success) (f : Failure)
    (rest : List Response) :
    (pullLoop [] (recs.map .record ++ .success s :: rest)
      = .ok (if s.has_more then .hasMore recs else .finished s recs, rest)) ∧
    (pullLoop [] (recs.map .record ++ .failure f :: rest)
      = .error (.failureResponse f.code f.message)) ∧
    (pullLoop [] (recs.map .record ++ .ignored :: rest)
      = .ok (.ignored, rest)) ∧
    (getProperty s.metadata "has_more" = none → s.has_more = false) := by
  refine ⟨?_, ?_, ?_, ?_⟩
  · rw [pullLoop_records_shift]
    simp only [List.nil_append, pullLoop]
    split <;> rfl
  · rw [pullLoop_records_shift]
    rfl
  · rw [pullLoop_records_shift]
    rfl
  · intro h
    simp [Success.has_more, h]

/-- Witness for C3 at one record and an empty `SUCCESS` metadata (so
`has_more` is absent and defaults to false). -/
theorem c3_witness :
    pullLoop [] [.record ⟨[]⟩, .success ⟨[]⟩]
      = .ok (.finished ⟨[]⟩ [⟨[]⟩], []) ∧
    Success.has_more ⟨[]⟩ = false := by
  constructor
  · have h := (c3_pull_loop [⟨[]⟩] ⟨[]⟩ ⟨[]⟩ []).1
    simpa [Success.has_more, getProperty] using h
  · exact (c3_pull_loop [⟨[]⟩] ⟨[]⟩ ⟨[]⟩ []).2.2.2 rfl

/-- Claim C9: `CommitPrepare::encode` emits a dictionary whose header
field count equals the number of emitted properties, and a key appears
exactly when the corresponding field is set — `bookmarks` only when the
list is non-empty, `tx_timeout` only when set, `tx_metadata` only when
non-empty, `mode` only when set (encoded as the string `"r"` or `"w"`)
and `db` only when set; no other key is ever emitted, so an unset field
never appears in the encoding. -/
theorem c9_commit_prepare_encode (cp : CommitPrepare) :
    ((cp.encode).fst = (cp.encode).snd.length) ∧
    (("bookmarks" ∈ (cp.encode).snd.map Prod.fst) ↔ cp.bookmarks ≠ []) ∧
    (("tx_timeout" ∈ (cp.encode).snd.map Prod.fst) ↔ cp.tx_timeout.isSome) ∧
    (("tx_metadata" ∈ (cp.encode).snd.map Prod.fst) ↔ cp.tx_metadata ≠ []) ∧
    (("mode" ∈ (cp.encode).snd.map Prod.fst) ↔ cp.mode.isSome) ∧
    (("db" ∈ (cp.encode).snd.map Prod.fst) ↔ cp.db.isSome) ∧
    (∀ k ∈ (cp.encode).snd.map Prod.fst,
        k = "bookmarks" ∨ k = "tx_timeout" ∨ k = "tx_metadata" ∨
        k = "mode" ∨ k = "db") ∧
    (∀ m, cp.mode = some m →
        ("mode", m.encode) ∈ (cp.encode).snd ∧
        (m.encode = .str "r" ∨ m.encode = .str "w")) := by
  obtain ⟨bm, tt, tm, md, db⟩ := cp
  refine ⟨?_, ?_, ?_, ?_, ?_, ?_, ?_, ?_⟩
  · cases tt <;> cases md <;> cases db <;> cases bm <;> cases tm <;>
      simp [CommitPrepare.encode]
  · cases tt <;> cases md <;> cases db <;> cases bm <;> cases tm <;>
      simp [CommitPrepare.encode]
  · cases tt <;> cases md <;> cases db <;> cases bm <;> cases tm <;>
      simp [CommitPrepare.encode]
  · cases tt <;> cases md <;> cases db <;> cases bm <;> cases tm <;>
      simp [CommitPrepare.encode]
  · cases tt <;> cases md <;> cases db <;> cases bm <;> cases tm <;>
      simp [CommitPrepare.encode]
  · cases tt <;> cases md <;> cases db <;> cases bm <;> cases tm <;>
      simp [CommitPrepare.encode]
  · intro k hk
    cases tt <;> cases md <;> cases db <;> cases bm <;> cases tm <;>
      (simp [CommitPrepare.encode] at hk; try tauto)
  · intro m hm
    cases md with
    | none => simp at hm
    | some m2 =>
        simp only at hm
        injection hm with h
        subst h
        constructor
        · cases tt <;> cases db <;> cases bm <;> cases tm <;>
            simp [CommitPrepare.encode]
        · cases m2 <;> simp [CommitMode.encode]

theorem splitNE_flatten_bounded (cap : Nat) (hcap : 0 < cap) :
    ∀ (n : Nat) (bs : List Nat), bs.length ≤ n →
      (splitNE cap bs).flatten = bs := by
  intro n
  induction n with
  | zero =>
      intro bs hbs
      have : bs = [] := List.length_eq_zero.mp (Nat.le_zero.mp hbs)
      subst this
      unfold splitNE
      simp
  | succ n ih =>
      intro bs hbs
      unfold splitNE
      split_ifs with h1 h2 h3
      · omega
      · simp [h2]
      · simp
      · simp only [List.flatten_cons]
        rw [ih (bs.drop cap) (by simp only [List.length_drop]; omega)]
        exact List.take_append_drop cap bs

theorem splitNE_flatten (cap : Nat) (hcap : 0 < cap) (bs : List Nat) :
    (splitNE cap bs).flatten = bs :=
  splitNE_flatten_bounded cap hcap bs.length bs le_rfl

theorem splitNE_piece_bounds_bounded (cap : Nat) (hcap : 0 < cap) :
    ∀ (n : Nat) (bs : List Nat), bs.length ≤ n →
      ∀ p ∈ splitNE cap bs, 0 < p.length ∧ p.length ≤ cap := by
  intro n
  induction n with
  | zero =>
      intro bs hbs
      have : bs = [] := List.length_eq_zero.mp (Nat.le_zero.mp hbs)
      subst this
      unfold splitNE
      simp
  | succ n ih =>
      intro bs hbs p hp
      rw [splitNE] at hp
      split_ifs at hp with h1 h2 h3
      · omega
      · simp at hp
      · simp only [List.mem_singleton] at hp
        rw [hp]
        refine ⟨?_, h3⟩
        have : bs ≠ [] := h2
        have := List.length_pos.mpr this
        omega
      · simp only [List.mem_cons] at hp
        rcases hp with hp | hp
        · rw [hp]
          simp only [List.length_take]
          omega
        · exact ih (bs.drop cap) (by simp only [List.length_drop]; omega) p hp

theorem splitNE_piece_bounds (cap : Nat) (hcap : 0 < cap) (bs : List Nat) :
    ∀ p ∈ splitNE cap bs, 0 < p.length ∧ p.length ≤ cap :=
  splitNE_piece_bounds_bounded cap hcap bs.length bs le_rfl

theorem splitNE_ne_nil (cap : Nat) (hcap : 0 < cap) (bs : List Nat)
    (hbs : bs ≠ []) : splitNE cap bs ≠ [] := by
  intro h
  have := splitNE_flatten cap hcap bs
  rw [h] at this
  exact hbs (by simpa using this.symm)

theorem newChunksFor_eq_splitNE (cap : Nat) (hcap : 0 < cap) :
    ∀ (n : Nat) (bs : List Nat), bs.length ≤ n →
      newChunksFor cap bs =
        if bs = [] then [⟨cap, []⟩]
        else (splitNE cap bs).map (fun p => Chunk.mk cap p) := by
  intro n
  induction n with
  | zero =>
      intro bs hbs
      have : bs = [] := List.length_eq_zero.mp (Nat.le_zero.mp hbs)
      subst this
      unfold newChunksFor
      simp [show ¬(cap = 0) by omega]
  | succ n ih =>
      intro bs hbs
      by_cases hnil : bs = []
      · subst hnil
        unfold newChunksFor
        simp [show ¬(cap = 0) by omega]
      · rw [newChunksFor]
        rw [splitNE]
        simp only [show ¬(cap = 0) from by omega, dite_false, if_neg hnil,
          if_neg (show ¬(cap = 0) from by omega)]
        by_cases hlen : bs.length ≤ cap
        · simp [hlen]
        · simp only [if_neg hlen]
          rw [ih (bs.drop cap) (by simp only [List.length_drop]; omega)]
          have hdrop : bs.drop cap ≠ [] := by
            intro h
            have := congrArg List.length h
            simp only [List.length_drop, List.length_nil] at this
            omega
          simp [hdrop]

theorem writeChunks_replicate (cap : Nat) (hcap : 0 < cap) :
    ∀ (k : Nat) (bs : List Nat),
      writeChunks cap (List.replicate k ⟨cap, []⟩) bs =
        (splitNE cap bs).map (fun p => Chunk.mk cap p) ++
        List.replicate
          (if bs = [] then max k 1 else k - (splitNE cap bs).length)
          ⟨cap, []⟩ := by
  intro k
  induction k with
  | zero =>
      intro bs
      simp only [List.replicate_zero]
      rw [show writeChunks cap [] bs = newChunksFor cap bs from rfl]
      rw [newChunksFor_eq_splitNE cap hcap bs.length bs le_rfl]
      by_cases hnil : bs = []
      · subst hnil
        unfold splitNE
        simp [show ¬(cap = 0) from by omega]
      · simp [hnil]
  | succ k ih =>
      intro bs
      simp only [List.replicate_succ]
      rw [show writeChunks cap (⟨cap, []⟩ :: List.replicate k ⟨cap, []⟩) bs =
        (if Chunk.hasCapacity ⟨cap, []⟩ then
          match Chunk.writeBytes ⟨cap, []⟩ bs with
          | (c', none) => c' :: List.replicate k ⟨cap, []⟩
          | (c', some leftover) =>
              c' :: writeChunks cap (List.replicate k ⟨cap, []⟩) leftover
        else ⟨cap, []⟩ :: writeChunks cap (List.replicate k ⟨cap, []⟩) bs)
        from rfl]
      have hhc : Chunk.hasCapacity ⟨cap, []⟩ = true := by
        simp [Chunk.hasCapacity, hcap]
      rw [if_pos hhc]
      unfold Chunk.writeBytes
      dsimp only
      simp only [List.length_nil, Nat.sub_zero, List.nil_append]
      rw [if_pos hcap]
      by_cases hlen : cap < bs.length
      · rw [if_pos hlen]
        dsimp only
        rw [ih (bs.drop cap)]
        have hbs : bs ≠ [] := by
          intro h
          subst h
          simp at hlen
        have hdrop : bs.drop cap ≠ [] := by
          intro h
          have := congrArg List.length h
          simp only [List.length_drop, List.length_nil] at this
          omega
        rw [show splitNE cap bs =
            bs.take cap :: splitNE cap (bs.drop cap) from by
          rw [splitNE]
          simp [show ¬(cap = 0) from by omega, hbs,
            show ¬(bs.length ≤ cap) from by omega]]
        simp only [List.map_cons, List.cons_append, List.nil_append,
          if_neg hbs, if_neg hdrop, List.length_cons]
        have harith : k - (splitNE cap (List.drop cap bs)).length
            = k + 1 - ((splitNE cap (List.drop cap bs)).length + 1) := by
          omega
        rw [harith]
      · rw [if_neg hlen]
        dsimp only
        by_cases hnil : bs = []
        · subst hnil
          rw [show splitNE cap [] = [] from by unfold splitNE; simp]
          simp only [List.map_nil, List.nil_append, if_pos rfl]
          rw [show max (k + 1) 1 = k + 1 from by omega]
          simp [List.replicate_succ]
        · rw [show splitNE cap bs = [bs] from by
            rw [splitNE]
            simp [show ¬(cap = 0) from by omega, hnil,
              show bs.length ≤ cap from by omega]]
          simp [hnil]

/-- Claim C6: for a message built by writing payload `m` into a fresh
message of positive chunk capacity (one pre-allocated chunk, the default),
`Message::pack` frames every chunk as its `u16` big-endian payload length
followed by exactly that payload, each payload at most `chunk_capacity`
bytes, terminated by `0x00 0x00` — the frame sequence of the greedy
non-empty chunking of `m`. -/
theorem c6_message_pack_frames (m : List Nat) (cap : Nat) (h1 : 0 < cap)
    (h2 : cap < 65536) (h3 : m ≠ []) :
    Message.pack ((Message.new_alloc 1 cap).writeBytes m) =
      ((splitNE cap m).map (fun p => u16be p.length ++ p)).flatten
        ++ [0, 0] ∧
    ∀ p ∈ splitNE cap m, 0 < p.length ∧ p.length ≤ cap := by
  refine ⟨?_, splitNE_piece_bounds cap h1 m⟩
  show Message.pack ⟨cap, writeChunks cap (List.replicate 1 ⟨cap, []⟩) m⟩ = _
  rw [writeChunks_replicate cap h1 1 m]
  have hone : 1 - (splitNE cap m).length = 0 := by
    have := splitNE_ne_nil cap h1 m h3
    have : 0 < (splitNE cap m).length := List.length_pos.mpr this
    omega
  rw [if_neg h3, hone]
  simp only [List.replicate_zero, List.append_nil]
  unfold Message.pack
  dsimp only
  rw [List.map_map]
  congr 1
  congr 1
  apply List.map_congr_left
  intro p hp
  have hb := splitNE_piece_bounds cap h1 m p hp
  simp only [Function.comp_apply, Chunk.pack]
  rw [Nat.mod_eq_of_lt (by omega)]

/-- Witness for C6: the ten-byte payload `[1..10]` with chunk capacity `3`
frames to `[00 03 01 02 03] [00 03 04 05 06] [00 03 07 08 09] [00 01 0A]
[00 00]`. -/
theorem c6_witness :
    (0 : Nat) < 3 ∧ (3 : Nat) < 65536 ∧
    ([1, 2, 3, 4, 5, 6, 7, 8, 9, 10] : List Nat) ≠ [] ∧
    Message.pack ((Message.new_alloc 1 3).writeBytes
        [1, 2, 3, 4, 5, 6, 7, 8, 9, 10])
      = [0, 3, 1, 2, 3, 0, 3, 4, 5, 6, 0, 3, 7, 8, 9, 0, 1, 10, 0, 0] := by
  refine ⟨by decide, by decide, by decide, ?_⟩
  have h := (c6_message_pack_frames [1, 2, 3, 4, 5, 6, 7, 8, 9, 10] 3
    (by decide) (by decide) (by decide)).1
  rw [h]
  simp [splitNE, u16be]

theorem chunkUnpack_frame (p rest : List Nat) (h : p.length < 65536) :
    Chunk.unpack (u16be p.length ++ p ++ rest) = .ok (⟨p.length, p⟩, rest) := by
  unfold Chunk.unpack u16be
  simp only [List.cons_append, List.nil_append, List.headD_cons,
    List.drop_succ_cons, List.drop_zero]
  have hsize : p.length / 256 % 256 * 256 + p.length % 256 = p.length := by
    omega
  rw [hsize]
  rw [if_pos (by simp)]
  rw [List.take_left, List.drop_left]

theorem unpackChunksLoopF_frames (ps : List (List Nat)) :
    ∀ (tail : List Nat) (fuel : Nat),
      (∀ p ∈ ps, 0 < p.length ∧ p.length < 65536) →
      ((ps.map (fun p => u16be p.length ++ p)).flatten
          ++ 0 :: 0 :: tail).length < fuel →
      unpackChunksLoopF fuel
          ((ps.map (fun p => u16be p.length ++ p)).flatten ++ 0 :: 0 :: tail)
        = .ok (ps.map (fun p => Chunk.mk p.length p), tail) := by
  induction ps with
  | nil =>
      intro tail fuel hp hf
      simp only [List.map_nil, List.flatten_nil, List.nil_append] at hf ⊢
      cases fuel with
      | zero => omega
      | succ f =>
          simp [unpackChunksLoopF, Chunk.unpack]
  | cons p ps ih =>
      intro tail fuel hp hf
      obtain ⟨hp0, hp65⟩ := hp p (by simp)
      cases fuel with
      | zero => omega
      | succ f =>
          simp only [List.map_cons, List.flatten_cons, List.append_assoc]
          rw [unpackChunksLoopF]
          rw [show u16be p.length ++ (p ++
              ((ps.map (fun p => u16be p.length ++ p)).flatten
                ++ 0 :: 0 :: tail))
            = u16be p.length ++ p ++
              ((ps.map (fun p => u16be p.length ++ p)).flatten
                ++ 0 :: 0 :: tail) from by simp [List.append_assoc]]
          rw [chunkUnpack_frame _ _ hp65]
          dsimp only
          rw [if_neg (by omega)]
          have hlen2 : ((ps.map (fun p => u16be p.length ++ p)).flatten
              ++ 0 :: 0 :: tail).length < f := by
            simp only [List.map_cons, List.flatten_cons, List.append_assoc,
              List.length_append, List.length_cons, List.length_nil,
              u16be] at hf ⊢
            omega
          rw [ih tail f (fun q hq => hp q (by simp [hq])) hlen2]

theorem replicate_terminator_frames (e : Nat) :
    ∃ g : List Nat,
      (List.replicate e ([0, 0] : List Nat)).flatten ++ [0, 0]
        = 0 :: 0 :: g := by
  cases e with
  | zero => exact ⟨[], rfl⟩
  | succ n =>
      refine ⟨(List.replicate n ([0, 0] : List Nat)).flatten ++ [0, 0], ?_⟩
      simp [List.replicate_succ]

theorem unpack_pack_chunks_content (cap : Nat) (h1 : 0 < cap)
    (h2 : cap < 65536) (m : List Nat) (e : Nat) :
    Option.map (fun p => Message.content (Prod.fst p))
      (Message.unpack (Message.pack
        ⟨cap, (splitNE cap m).map (fun p => Chunk.mk cap p) ++
          List.replicate e ⟨cap, []⟩⟩)).toOption = some m := by
  unfold Message.pack
  dsimp only
  rw [List.map_append, List.map_map, List.flatten_append]
  have hpackempty : List.map Chunk.pack (List.replicate e ⟨cap, []⟩)
      = List.replicate e ([0, 0] : List Nat) := by
    rw [List.map_replicate]
    norm_num [Chunk.pack, u16be]
  rw [hpackempty]
  have hframes : List.map (Chunk.pack ∘ fun p => Chunk.mk cap p)
        (splitNE cap m)
      = List.map (fun p => u16be p.length ++ p) (splitNE cap m) := by
    apply List.map_congr_left
    intro p hp
    have hb := splitNE_piece_bounds cap h1 m p hp
    simp only [Function.comp_apply, Chunk.pack]
    rw [Nat.mod_eq_of_lt (by omega)]
  rw [hframes]
  obtain ⟨g, hg⟩ := replicate_terminator_frames e
  rw [List.append_assoc, hg]
  unfold Message.unpack
  rw [unpackChunksLoopF_frames (splitNE cap m) g _
    (fun p hp => by
      have hb := splitNE_piece_bounds cap h1 m p hp
      exact ⟨hb.1, by omega⟩)
    (by omega)]
  simp only [Except.toOption, Option.map_some']
  congr 1
  unfold Message.content
  dsimp only
  rw [List.map_map]
  rw [show (Chunk.bytes ∘ fun p => Chunk.mk p.length p) = id from rfl]
  rw [List.map_id]
  exact splitNE_flatten cap h1 m

/-- Claim C7: writing any payload `m` into a fresh message of any positive
chunk capacity (any number of pre-allocated chunks), packing it and
unpacking the produced stream yields a message whose readable byte content
is exactly `m`. -/
theorem c7_message_roundtrip (m : List Nat) (cap init : Nat) (h1 : 0 < cap)
    (h2 : cap < 65536) :
    Option.map (fun p => Message.content (Prod.fst p))
      (Message.unpack
        (Message.pack ((Message.new_alloc init cap).writeBytes m))).toOption
      = some m := by
  show Option.map (fun p => Message.content (Prod.fst p))
      (Message.unpack (Message.pack
        ⟨cap, writeChunks cap (List.replicate init ⟨cap, []⟩) m⟩)).toOption
      = some m
  rw [writeChunks_replicate cap h1 init m]
  exact unpack_pack_chunks_content cap h1 h2 m _

/-- Witness for C7 at the ten-byte payload `[1..10]`, capacity `3`, one
pre-allocated chunk. -/
theorem c7_witness :
    (0 : Nat) < 3 ∧ (3 : Nat) < 65536 ∧
    Option.map (fun p => Message.content (Prod.fst p))
      (Message.unpack
        (Message.pack ((Message.new_alloc 1 3).writeBytes
          [1, 2, 3, 4, 5, 6, 7, 8, 9, 10]))).toOption
      = some [1, 2, 3, 4, 5, 6, 7, 8, 9, 10] :=
  ⟨by decide, by decide,
   c7_message_roundtrip [1, 2, 3, 4, 5, 6, 7, 8, 9, 10] 3 1 (by decide)
     (by decide)⟩

end Raio
